import Mathlib

/-
Shallow embedding of the multi-tenant chat-orchestration core:
the chat service (`processChatWithGPT`, `chatHistoryManager`, `fetchConfig`,
`buildSystemMessage` from the Mongo-backed service file), the vector-search
service (`searchProducts`, `buildVectorStore` from vector.service.js) and the
DAO calls they make.  External collaborators (MongoDB, the embedding and
completion HTTP services, LangChain's in-memory vector store and JSON.parse)
are modelled as oracles in an `Env` record; process-wide state (the module
caches, the conversation collection, and a chronological trace of external
calls) is threaded explicitly through a `St` record.  A JavaScript thrown
error / rejected promise is `Except.error`.
-/

deriving instance DecidableEq for Except

namespace ChatService

/-- `MAX_HISTORY_LENGTH = 10` — keeps the system prompt plus the last 9
exchanges. -/
def MAX_HISTORY_LENGTH : Nat := 10

/-- One chat message of a conversation history.  `timestamp` is stamped by
`appendToHistory` (`moment().tz(timezone).toDate()`, modelled as an opaque
integer time); the initial system message carries no timestamp. -/
structure Message where
  role : String
  content : String
  timestamp : Option Int := none
deriving Repr, DecidableEq

/-- One slot of a JavaScript message array: a message object, or `undefined`
(`none`).  An `undefined` slot can only be produced by the pruning branch of
`appendToHistory` when `find` locates no system message. -/
abbrev JsMsg := Option Message

/-- A catalog product as used by this core.  `id` is `_id.toString()` of the
Mongo document.  `priceRegular`/`priceSale` model `price.regular`/`price.sale`
by the string their template-literal interpolation produces (the numeric
value itself is never computed with); `none` is an absent field. -/
structure Product where
  id : String
  title : String
  description_short : String
  priceRegular : Option String := none
  priceSale : Option String := none
  slug : String
  image_default : List String := []
deriving Repr, DecidableEq

/-- A LangChain document held by the per-domain `MemoryVectorStore`:
`pageContent` plus `metadata.productId` (already `toString()`ed). -/
structure Doc where
  pageContent : String
  productId : String
deriving Repr, DecidableEq

/-- The structured `action` object of a parsed completion reply.  Fields the
model may omit are `Option`; `extra` carries any additional model-supplied
key/value pairs (JSON values kept opaquely as strings), preserved by object
spread. -/
structure Action where
  type : Option String := none
  productId : Option String := none
  quantity : Option String := none
  url : Option String := none
  price_sale : Option String := none
  title : Option String := none
  price_regular : Option String := none
  image : Option String := none
  slug : Option String := none
  extra : List (String × String) := []
deriving Repr, DecidableEq

/-- A parsed completion payload (`JSON.parse` of the raw assistant text). -/
structure AssistantReply where
  message : Option String := none
  audio_description : Option String := none
  action : Option Action := none
deriving Repr, DecidableEq

/-- The value `processChatWithGPT` resolves with. -/
structure ChatResponse where
  message : String
  audio_description : String
  action : Action
deriving Repr, DecidableEq

/-- The business configuration of a tenant, kept opaquely as the string
`JSON.stringify(infoBusiness, null, 2)` produces (only that serialized form
ever enters the core). -/
abbrev Config := String

/-- `data?.[0] || {}` when the configuration collaborator returns no entry:
the empty object, serialized. -/
def emptyConfig : Config := "\x7b\x7d"

/-- One stored `Conversation` document, keyed by `(domain, userId)`. -/
structure Conv where
  userEmail : String
  merchandId : Option String := none
  messages : List JsMsg
deriving Repr, DecidableEq

/-- Trace entry for one outbound collaborator call. -/
inductive ExtCall where
  | dbByDomain (domain : String)
  | dbByIds (ids : List String)
  | embedDocuments (texts : List String)
  | embedQuery (text : String)
  | configGet (domain : String)
  | completion (messages : List (Option (String × String)))
deriving Repr, DecidableEq

/-- Calls that hit the embedding or completion collaborator. -/
def isModelCall : ExtCall → Bool
  | .embedDocuments _ => true
  | .embedQuery _ => true
  | .completion _ => true
  | _ => false

/-- Process-wide mutable state: the three module-level caches
(`PRODUCT_CACHE`, `VECTOR_STORE_CACHE` — kept as the indexed document list —
and `CONFIG_CACHE`), the Mongo `Conversation` collection, and the
chronological trace of external calls made so far. -/
structure St where
  productCache : List (String × List Product) := []
  indexCache : List (String × List Doc) := []
  configCache : List (String × Config) := []
  conversations : List ((String × String) × Conv) := []
  calls : List ExtCall := []
deriving Repr, DecidableEq

/-- Lookup in a JavaScript `Map` / Mongo collection keyed by `k`. -/
def assocGet {κ α : Type} [DecidableEq κ] (l : List (κ × α)) (k : κ) : Option α :=
  (l.find? (fun p => decide (p.1 = k))).map Prod.snd

/-- `Map.set` / upsert: replace the binding for `k`, or add it. -/
def assocSet {κ α : Type} [DecidableEq κ] (l : List (κ × α)) (k : κ) (v : α) : List (κ × α) :=
  match l with
  | [] => [(k, v)]
  | (k0, v0) :: rest => if k0 = k then (k, v) :: rest else (k0, v0) :: assocSet rest k v

/-- Record one outbound collaborator call in the trace. -/
def logCall (st : St) (c : ExtCall) : St :=
  { st with calls := st.calls ++ [c] }

/-- Responses of the external collaborators for the current turn.  `.error`
is a rejected promise / thrown error.  `parseJson` models `JSON.parse` plus
the property reads on its result; `none` means the parse throws. -/
structure Env where
  now : Int
  productsByDomain : String → Except String (List Product)
  productsByIds : List String → Except String (List Product)
  configData : String → Except String (List Config)
  fromDocuments : List Doc → Except String Unit
  similaritySearch : List Doc → String → Nat → Except String (List Doc)
  completionContent : Except String String
  parseJson : String → Option AssistantReply

/- ===================== chatHistoryManager ===================== -/

/-- `updatedHistory.find(m => m.role === 'system')`.  `.ok none` is JS `find`
returning `undefined` (no match); `.error ()` models the TypeError raised when
the traversal reads `.role` of an `undefined` slot before finding a match. -/
def findSystem : List JsMsg → Except Unit JsMsg
  | [] => .ok none
  | none :: _ => .error ()
  | some m :: rest => if m.role == "system" then .ok (some m) else findSystem rest

/-- `updatedHistory.filter(m => m.role !== 'system')`; `.error ()` models the
TypeError on an `undefined` slot. -/
def filterNonSystem : List JsMsg → Except Unit (List JsMsg)
  | [] => .ok []
  | none :: _ => .error ()
  | some m :: rest =>
    match filterNonSystem rest with
    | .error e => .error e
    | .ok r => .ok (if m.role == "system" then r else some m :: r)

/-- The timestamp spread of `appendToHistory`:
`message => ({...message, timestamp: moment().tz(timezone).toDate()})`. -/
def stampMsg (now : Int) (m : Message) : Message :=
  { m with timestamp := some now }

/-- The pruning step of `appendToHistory` applied to `updatedHistory`: if it
exceeds `MAX_HISTORY_LENGTH`, keep the first system-role message `find`
locates plus the last `MAX_HISTORY_LENGTH - 1` non-system entries
(`conversation.slice(-MAX_HISTORY_LENGTH + 1)`, i.e. `List.drop` of all but
the trailing nine); otherwise return it as is. -/
def prune (updatedHistory : List JsMsg) : Except Unit (List JsMsg) :=
  if MAX_HISTORY_LENGTH < updatedHistory.length then
    match findSystem updatedHistory with
    | .error e => .error e
    | .ok systemMessage =>
      match filterNonSystem updatedHistory with
      | .error e => .error e
      | .ok conversation =>
        .ok (systemMessage :: conversation.drop (conversation.length - (MAX_HISTORY_LENGTH - 1)))
  else
    .ok updatedHistory

/-- `chatHistoryManager.appendToHistory`, as a pure function of the history it
reads from the store: stamp the new messages with the current time, append
them to the current history, and prune.  The caller persists the returned
list via `setHistory`. -/
def appendToHistory (now : Int) (currentHistory : List JsMsg)
    (newMessages : List Message) : Except Unit (List JsMsg) :=
  prune (currentHistory ++ (newMessages.map (stampMsg now)).map some)

/-- `chatHistoryManager.setHistory` (`findOneAndUpdate` with upsert).  When
called from `appendToHistory` the `merchandId` argument is `undefined`
(`none` here), which mongoose omits from the update, keeping the stored
value. -/
def setHistorySt (st : St) (domain userId userEmail : String)
    (merchandId? : Option String) (messages : List JsMsg) : St :=
  let prev := assocGet st.conversations (domain, userId)
  let merch : Option String :=
    match merchandId?, prev with
    | some m, _ => some m
    | none, some c => c.merchandId
    | none, none => none
  let newConv : Conv := { userEmail := userEmail, merchandId := merch, messages := messages }
  { st with conversations := assocSet st.conversations (domain, userId) newConv }

/-- A sequence of `appendToHistory` calls against one session's stored
history, each batch stamped at its own time. -/
def runAppends (h0 : List JsMsg) : List (Int × List Message) → Except Unit (List JsMsg)
  | [] => .ok h0
  | (now, batch) :: rest =>
    match appendToHistory now h0 batch with
    | .error e => .error e
    | .ok h1 => runAppends h1 rest

/-- Invariant of an initialized session history: non-empty, no `undefined`
slots, and the first message has role `system`. -/
def invB (h : List JsMsg) : Bool :=
  !h.isEmpty && h.all Option.isSome &&
    (match h with
     | some m :: _ => m.role == "system"
     | _ => false)

/- ===================== prompt construction ===================== -/

/-- The `clean` helper of the product-description builder:
`(str || '').replace(/\r?\n|\r/g, ' ').replace(/"/g, "'")`.  Each occurrence
of `\r\n`, `\n` or `\r` becomes one space (the alternation matches `\r\n` as a
single occurrence), then every double quote becomes a single quote.  The
`|| ''` guard only affects non-string inputs and is invisible for strings. -/
def collapseNewlines : List Char → List Char
  | [] => []
  | '\r' :: '\n' :: rest => ' ' :: collapseNewlines rest
  | '\n' :: rest => ' ' :: collapseNewlines rest
  | '\r' :: rest => ' ' :: collapseNewlines rest
  | c :: rest => c :: collapseNewlines rest

/-- Second stage of `clean`: `.replace(/"/g, "'")`. -/
def toSingleQuotes (l : List Char) : List Char :=
  l.map (fun c => if c == '"' then Char.ofNat 39 else c)

/-- `clean` as applied to each sanitized text field. -/
def clean (str : String) : String :=
  String.mk (toSingleQuotes (collapseNewlines str.data))

/-- The description line built for one relevant product (the `map` body of
`productDescriptions`): only `title` and `description_short` pass through
`clean`; `_id`, prices, `slug` and the first image URL are interpolated
verbatim.  `image_default[0]` of an empty list interpolates as the string
`"undefined"`, and an absent price as `'N/A'`. -/
def productDescription (p : Product) : String :=
  "ID: " ++ p.id ++ ", Nombre: \"" ++ clean p.title ++ "\", Precio: S/" ++
    (p.priceRegular.getD "N/A") ++ ", Oferta: S/" ++ (p.priceSale.getD "N/A") ++
    ", Descripción: " ++ clean p.description_short ++ ", URL: /product/" ++ p.slug ++
    ", IMAGEN: " ++ (p.image_default.head?.getD "undefined") ++ ", SLUG: " ++ p.slug

/-- The description the specification's sanitization sentence would require:
identical format, but with every text field passed through `clean`.  This is
the spec-side definition for the refinement comparison of claim C9; the
source-side definition is `productDescription` above. -/
def productDescriptionClaimed (p : Product) : String :=
  "ID: " ++ clean p.id ++ ", Nombre: \"" ++ clean p.title ++ "\", Precio: S/" ++
    clean (p.priceRegular.getD "N/A") ++ ", Oferta: S/" ++ clean (p.priceSale.getD "N/A") ++
    ", Descripción: " ++ clean p.description_short ++ ", URL: /product/" ++ clean p.slug ++
    ", IMAGEN: " ++ clean (p.image_default.head?.getD "undefined") ++ ", SLUG: " ++ clean p.slug

/-- One hexadecimal digit, for `JSON.stringify`'s control-character escapes. -/
def hexDigit (n : Nat) : Char :=
  if n < 10 then Char.ofNat (n + 48) else Char.ofNat (n + 87)

/-- How `JSON.stringify` escapes one character of a string value. -/
def jsonEscapeChar (c : Char) : String :=
  if c == '"' then "\\\""
  else if c == '\\' then "\\\\"
  else if c == '\n' then "\\n"
  else if c == '\r' then "\\r"
  else if c == '\t' then "\\t"
  else if c.toNat < 32 then
    "\\u00" ++ String.mk [hexDigit (c.toNat / 16), hexDigit (c.toNat % 16)]
  else String.mk [c]

/-- `JSON.stringify` of a string value (the indentation argument is irrelevant
for strings): the escaped contents wrapped in double quotes. -/
def jsonStringifyString (s : String) : String :=
  "\"" ++ String.join (s.data.map jsonEscapeChar) ++ "\""

/-- Opening words of the fixed system-prompt template, up to the interpolated
store domain. -/
def PROMPT_HEAD : String :=
  "Eres un asistente de ventas experto, amable y consultivo para la tienda \""

/-- Template text between the domain and the serialized business info. -/
def PROMPT_AFTER_DOMAIN : String :=
  "\", que se especializa en comercio electrónico. Usa únicamente la siguiente información de la empresa: "

/-- The long static instruction block between the business info and the
catalog section.  Its literal Spanish wording (golden rule, response format,
behaviour sections) is abbreviated to its opening and closing words; no claim
depends on this fixed text, only on where the interpolated values sit. -/
def PROMPT_RULES : String :=
  ". Tu propósito es ayudar a los usuarios de manera clara, segura y personalizada, siguiendo estrictamente las reglas y formatos establecidos. [...] ### CATÁLOGO DISPONIBLE\nUsa solo esta información para responder. No inventes productos, características ni URL:\n"

/-- `buildSystemMessage(domain, productDescriptions, infoBusiness)`: the fixed
template with the domain, the serialized business configuration and the
JSON-stringified product-description string interpolated.  `infoBusiness` is
already carried in serialized form (see `Config`). -/
def buildSystemMessage (domain : String) (productDescriptions : String)
    (infoBusiness : Config) : String :=
  let safeBusinessInfo := infoBusiness
  let safeProductDescriptions := jsonStringifyString productDescriptions
  PROMPT_HEAD ++ domain ++ PROMPT_AFTER_DOMAIN ++ safeBusinessInfo ++
    PROMPT_RULES ++ safeProductDescriptions

/- ===================== vector search service ===================== -/

/-- The LangChain documents built for a product list: `pageContent` is the
deterministic concatenation of name and short description, `metadata` carries
`product._id.toString()`. -/
def mkDocuments (products : List Product) : List Doc :=
  products.map (fun p =>
    { pageContent := "Nombre: " ++ p.title ++ ", Descripción: " ++ p.description_short,
      productId := p.id })

/-- `buildVectorStore(domain, products, apiKey)`: return the cached store for
the domain, or build one by embedding every document
(`MemoryVectorStore.fromDocuments`, an external embedding call) and cache it.
The store is carried as its indexed document list; its vectors live behind the
`similaritySearch` oracle. -/
def buildVectorStore (env : Env) (domain : String) (products : List Product)
    (st : St) : Except String (List Doc × St) :=
  match assocGet st.indexCache domain with
  | some store => .ok (store, st)
  | none =>
    let documents := mkDocuments products
    let st := logCall st (.embedDocuments (documents.map Doc.pageContent))
    match env.fromDocuments documents with
    | .error e => .error e
    | .ok _ =>
      .ok (documents, { st with indexCache := assocSet st.indexCache domain documents })

/-- `searchProducts(domain, products, query, apiKey, k = 5)`: empty product
list short-circuits to `[]` with no external call; otherwise build or reuse
the store, embed the query and run `similaritySearch(query, k)` (one external
call, logged as the query embedding), and map the resulting documents to their
`metadata.productId`. -/
def searchProducts (env : Env) (domain : String) (products : List Product)
    (query : String) (apiKey : String) (k : Nat) (st : St) :
    Except String (List String × St) :=
  if products.isEmpty then .ok ([], st)
  else
    match buildVectorStore env domain products st with
    | .error e => .error e
    | .ok (store, st) =>
      let st := logCall st (.embedQuery query)
      match env.similaritySearch store query k with
      | .error e => .error e
      | .ok searchResults => .ok (searchResults.map Doc.productId, st)

/- ===================== chat service steps ===================== -/

/-- `fetchConfig(domain)`: cached configuration, or one `axios.get` to the
configuration collaborator; `data?.[0] || {}` picks the first entry; a failed
call is re-thrown as the domain-specific configuration error and is not
cached. -/
def fetchConfig (env : Env) (domain : String) (st : St) : Except String (Config × St) :=
  match assocGet st.configCache domain with
  | some c => .ok (c, st)
  | none =>
    let st := logCall st (.configGet domain)
    match env.configData domain with
    | .error _ => .error ("Error de configuración para el dominio " ++ domain)
    | .ok data =>
      let config := data.head?.getD emptyConfig
      .ok (config, { st with configCache := assocSet st.configCache domain config })

/-- Step 1 of `processChatWithGPT`: `PRODUCT_CACHE.get(domain)`, falling back
to `getProductsByDomain` and caching the result (an empty array is cached and
is a hit, being truthy). -/
def loadProducts (env : Env) (domain : String) (st : St) :
    Except String (List Product × St) :=
  match assocGet st.productCache domain with
  | some ps => .ok (ps, st)
  | none =>
    let st := logCall st (.dbByDomain domain)
    match env.productsByDomain domain with
    | .error e => .error e
    | .ok ps => .ok (ps, { st with productCache := assocSet st.productCache domain ps })

/-- Step 3's collaborator call: `getProductsByIds(relevantProductIds)` (order
not guaranteed by the store). -/
def fetchRelevant (env : Env) (ids : List String) (st : St) :
    Except String (List Product × St) :=
  let st := logCall st (.dbByIds ids)
  match env.productsByIds ids with
  | .error e => .error e
  | .ok ps => .ok (ps, st)

/-- JavaScript `Array.prototype.indexOf`: the index of the first occurrence,
or `-1`. -/
def jsIndexOf (l : List String) (x : String) : Int :=
  if List.indexOf x l < l.length then (List.indexOf x l : Int) else -1

/-- The comparator key of the re-sort in step 3:
`relevantProductIds.indexOf(p._id.toString())`. -/
def rankOf (ids : List String) (p : Product) : Int :=
  jsIndexOf ids p.id

/-- `products.sort((a, b) => ids.indexOf(a._id) - ids.indexOf(b._id))`.
`Array.prototype.sort` with a consistent comparator yields a stable
permutation sorted by the comparator (ECMAScript spec); modelled by insertion
sort over the comparator's order. -/
def sortByRank (ids : List String) (ps : List Product) : List Product :=
  List.insertionSort (fun a b => rankOf ids a ≤ rankOf ids b) ps

/-- Session load-or-init (lines around the `if (!conversation)` branch): an
existing conversation document is reused as is (its system message is not
regenerated); otherwise a fresh history holding exactly the system prompt is
built and persisted with the caller's `merchandId`. -/
def loadOrInitSession (domain userId userEmail merchandId : String)
    (productDescriptions : String) (config : Config) (st : St) :
    List JsMsg × St :=
  match assocGet st.conversations (domain, userId) with
  | some conv => (conv.messages, st)
  | none =>
    let systemMessage := buildSystemMessage domain productDescriptions config
    let conversation : List JsMsg :=
      [some { role := "system", content := systemMessage, timestamp := none }]
    (conversation, setHistorySt st domain userId userEmail (some merchandId) conversation)

/-- `({role, content}) => ({role, content})` over one slot of the history (on
an `undefined` slot the destructuring would throw; the slot is passed through
here, a corner no initialized session reaches). -/
def msgView (x : JsMsg) : Option (String × String) :=
  x.map (fun m => (m.role, m.content))

/-- The persistence step of a successful turn: `appendToHistory` re-reads the
stored history (`getHistory`, absent ⇒ `[]`), computes the bounded history and
persists it (`setHistory` with an omitted `merchandId`). -/
def appendTurn (env : Env) (domain userId userEmail userMessage raw : String)
    (st : St) : Except Unit St :=
  let currentHistory := ((assocGet st.conversations (domain, userId)).map Conv.messages).getD []
  match appendToHistory env.now currentHistory
      [{ role := "user", content := userMessage },
       { role := "assistant", content := raw }] with
  | .error e => .error e
  | .ok finalHistory => .ok (setHistorySt st domain userId userEmail none finalHistory)

/-- JavaScript truthiness of the `productId` value guarding enrichment. -/
def jsTruthy : Option String → Bool
  | none => false
  | some s => !(s == "")

/-- The `{type: 'none'}` default action (`assistantReply.action ?? ...`). -/
def defaultNoneAction : Action := { type := some "none" }

/-- Action enrichment: when the parsed action is `add_to_cart` with a truthy
`productId` that resolves in the tenant's cached product list, overwrite
`url`, `price_sale`, `title`, `price_regular`, `image` and `slug` from the
catalog record (object spread keeps every other field); otherwise the action
passes through unmodified. -/
def enrichAction (allProducts : List Product) (action : Action) : Action :=
  if action.type == some "add_to_cart" && jsTruthy action.productId then
    match action.productId with
    | some pid =>
      match allProducts.find? (fun p => p.id == pid) with
      | some product =>
        { action with
          url := some ("/product/" ++ product.slug),
          price_sale := product.priceSale,
          title := some product.title,
          price_regular := product.priceRegular,
          image := product.image_default.head?,
          slug := some product.slug }
      | none => action
    | none => action
  else action

/-- The fixed apologetic fallback returned by the `catch` block. -/
def fallbackResponse : ChatResponse :=
  { message := "Hubo un problema al procesar tu solicitud. Por favor, intenta de nuevo.",
    audio_description := "Lo siento, ocurrió un error.",
    action := defaultNoneAction }

/-- The dedicated empty-catalog response of step 1. -/
def emptyCatalogResponse : ChatResponse :=
  { message := "No hay productos disponibles para esta tienda en este momento.",
    audio_description := "El catálogo de esta tienda está vacío.",
    action := defaultNoneAction }

/-- The `try { ... } catch` block of `processChatWithGPT`: call the completion
collaborator with the history plus the new user message, decode the payload,
persist the user and raw assistant turns, enrich the action, and default the
reply fields.  Every failure inside the block (completion call, JSON decode,
history append) is caught and mapped to `fallbackResponse`, so this step never
propagates an error. -/
def completeTurn (env : Env) (domain userMessage userId userEmail : String)
    (allProducts : List Product) (conversation : List JsMsg) (st : St) :
    ChatResponse × St :=
  let messagesForAPI := conversation.map msgView ++ [some ("user", userMessage)]
  let st := logCall st (.completion messagesForAPI)
  match env.completionContent with
  | .error _ => (fallbackResponse, st)
  | .ok rawAssistantResponse =>
    match env.parseJson rawAssistantResponse with
    | none => (fallbackResponse, st)
    | some assistantReply =>
      match appendTurn env domain userId userEmail userMessage rawAssistantResponse st with
      | .error _ => (fallbackResponse, st)
      | .ok st2 =>
        let finalAction :=
          match assistantReply.action with
          | some a => enrichAction allProducts a
          | none => defaultNoneAction
        ({ message := assistantReply.message.getD "Respuesta vacía.",
           audio_description := assistantReply.audio_description.getD "",
           action := finalAction }, st2)

/-- `processChatWithGPT(domain, userMessage, apiKey, userId, userEmail,
merchandId)`: load (or cache-hit) the tenant catalog; short-circuit on an
empty catalog; vector-search the relevant product ids; fetch those records and
re-sort them to the ranked order; build the product descriptions; fetch the
configuration; load or initialize the session; then run the guarded
completion turn.  Only the final step is inside a `try`/`catch` — failures of
the earlier steps propagate as `.error`. -/
def processChatWithGPT (env : Env)
    (domain userMessage apiKey userId userEmail merchandId : String)
    (st : St) : Except String (ChatResponse × St) :=
  match loadProducts env domain st with
  | .error e => .error e
  | .ok (allProducts, st) =>
    if allProducts.isEmpty then
      .ok (emptyCatalogResponse, st)
    else
      match searchProducts env domain allProducts userMessage apiKey 5 st with
      | .error e => .error e
      | .ok (relevantProductIds, st) =>
        match fetchRelevant env relevantProductIds st with
        | .error e => .error e
        | .ok (fetched, st) =>
          let relevantProducts := sortByRank relevantProductIds fetched
          let productDescriptions :=
            String.intercalate " | " (relevantProducts.map productDescription)
          match fetchConfig env domain st with
          | .error e => .error e
          | .ok (config, st) =>
            let convSt := loadOrInitSession domain userId userEmail merchandId
              productDescriptions config st
            .ok (completeTurn env domain userMessage userId userEmail allProducts
              convSt.1 convSt.2)

/- ===================== history lemmas ===================== -/

/-- A history slot that is a real message whose role is not `system`. -/
def nonSystemSlot : JsMsg → Bool
  | none => false
  | some m => !(m.role == "system")

lemma findSystem_cons_system (m : Message) (hm : m.role = "system") (l : List JsMsg) :
    findSystem (some m :: l) = .ok (some m) := by
  simp [findSystem, hm]

lemma findSystem_allSome (l : List JsMsg) (h : ∀ x ∈ l, x.isSome) :
    ∃ r, findSystem l = .ok r := by
  induction l with
  | nil => exact ⟨none, rfl⟩
  | cons x xs ih =>
    obtain ⟨m, rfl⟩ := Option.isSome_iff_exists.mp (h x (by simp))
    by_cases hc : m.role == "system"
    · exact ⟨some m, by simp [findSystem, hc]⟩
    · obtain ⟨r, hr⟩ := ih (fun y hy => h y (by simp [hy]))
      exact ⟨r, by simp [findSystem, hc, hr]⟩

lemma filterNonSystem_allSome (l : List JsMsg) (h : ∀ x ∈ l, x.isSome) :
    ∃ r, filterNonSystem l = .ok r ∧ ∀ x ∈ r, x.isSome := by
  induction l with
  | nil => exact ⟨[], rfl, by simp⟩
  | cons x xs ih =>
    obtain ⟨m, rfl⟩ := Option.isSome_iff_exists.mp (h x (by simp))
    obtain ⟨r, hr, hall⟩ := ih (fun y hy => h y (by simp [hy]))
    by_cases hc : m.role == "system"
    · exact ⟨r, by simp [filterNonSystem, hr, hc], hall⟩
    · refine ⟨some m :: r, by simp [filterNonSystem, hr, hc], ?_⟩
      intro y hy
      rcases List.mem_cons.mp hy with rfl | hy
      · rfl
      · exact hall y hy

lemma filterNonSystem_all_nonSystem (l : List JsMsg) (h : l.all nonSystemSlot = true) :
    filterNonSystem l = .ok l := by
  induction l with
  | nil => rfl
  | cons x xs ih =>
    rw [List.all_cons, Bool.and_eq_true] at h
    cases x with
    | none => simp [nonSystemSlot] at h
    | some m =>
      have hm : (m.role == "system") = false := by
        have := h.1
        simp [nonSystemSlot] at this
        simp [this]
      simp [filterNonSystem, ih h.2, hm]

lemma stamped_allSome (now : Int) (cur : List JsMsg) (newMessages : List Message)
    (h : ∀ x ∈ cur, x.isSome) :
    ∀ x ∈ cur ++ (newMessages.map (stampMsg now)).map some, x.isSome := by
  intro x hx
  rcases List.mem_append.mp hx with hx | hx
  · exact h x hx
  · obtain ⟨m, _, rfl⟩ := List.mem_map.mp hx
    rfl

lemma prune_ok_of_allSome (l : List JsMsg) (h : ∀ x ∈ l, x.isSome) :
    ∃ res, prune l = .ok res := by
  unfold prune
  split
  · obtain ⟨f, hf⟩ := findSystem_allSome _ h
    obtain ⟨r, hr, _⟩ := filterNonSystem_allSome _ h
    rw [hf, hr]
    exact ⟨_, rfl⟩
  · exact ⟨_, rfl⟩

lemma appendToHistory_ok_of_allSome (now : Int) (cur : List JsMsg) (newMessages : List Message)
    (h : ∀ x ∈ cur, x.isSome) :
    ∃ res, appendToHistory now cur newMessages = .ok res :=
  prune_ok_of_allSome _ (stamped_allSome now cur newMessages h)

lemma invB_shape (h : List JsMsg) (hi : invB h = true) :
    ∃ m t, h = some m :: t ∧ m.role = "system" ∧ ∀ x ∈ h, x.isSome := by
  cases h with
  | nil => simp [invB] at hi
  | cons x t =>
    cases x with
    | none => simp [invB] at hi
    | some m =>
      simp only [invB, List.isEmpty_cons, Bool.not_false, Bool.true_and, Bool.and_eq_true,
        List.all_eq_true, beq_iff_eq] at hi
      exact ⟨m, t, rfl, hi.2, fun x hx => hi.1 x hx⟩

lemma invB_cons (m : Message) (l : List JsMsg) (hrole : m.role = "system")
    (hall : ∀ x ∈ l, x.isSome) : invB (some m :: l) = true := by
  have h1 : (some m :: l).all Option.isSome = true := by
    simp only [List.all_cons, Option.isSome_some, Bool.true_and]
    exact List.all_eq_true.mpr (fun x hx => hall x hx)
  simp [invB, h1, hrole]

lemma append_preserves_inv (now : Int) (batch : List Message) (h : List JsMsg)
    (hi : invB h = true) :
    ∃ h2, appendToHistory now h batch = .ok h2 ∧ invB h2 = true := by
  obtain ⟨m, t, rfl, hrole, hall⟩ := invB_shape h hi
  have hall2 : ∀ x ∈ some m :: (t ++ (batch.map (stampMsg now)).map some), x.isSome :=
    stamped_allSome now (some m :: t) batch hall
  show ∃ h2, prune ((some m :: t) ++ (batch.map (stampMsg now)).map some) = .ok h2 ∧ invB h2 = true
  rw [List.cons_append]
  unfold prune
  split
  · rw [findSystem_cons_system m hrole]
    obtain ⟨r, hr, hrall⟩ := filterNonSystem_allSome _ hall2
    rw [hr]
    refine ⟨_, rfl, invB_cons m _ hrole ?_⟩
    intro x hx
    exact hrall x (List.drop_subset _ _ hx)
  · exact ⟨_, rfl, invB_cons m _ hrole
      (fun x hx => hall2 x (List.mem_cons_of_mem _ hx))⟩

/-- Claim C2: starting from a session initialized so that the stored history
is non-empty, has no `undefined` slots and begins with a system-role message
(`setHistory` with `[{role: 'system', ...}]` establishes exactly this), every
sequence of `appendToHistory` calls succeeds and leaves a history whose first
message, whenever the history is non-empty, has role `system`. -/
theorem history_head_system_invariant (h0 : List JsMsg)
    (batches : List (Int × List Message)) (hinit : invB h0 = true) :
    ∃ hf, runAppends h0 batches = .ok hf ∧
      (hf = [] ∨ ∃ m t, hf = some m :: t ∧ m.role = "system") := by
  induction batches generalizing h0 with
  | nil =>
    obtain ⟨m, t, rfl, hrole, _⟩ := invB_shape h0 hinit
    exact ⟨_, rfl, Or.inr ⟨m, t, rfl, hrole⟩⟩
  | cons b bs ih =>
    obtain ⟨n, batch⟩ := b
    obtain ⟨h1, hap, hinv1⟩ := append_preserves_inv n batch h0 hinit
    obtain ⟨hf, hrun, hshape⟩ := ih h1 hinv1
    refine ⟨hf, ?_, hshape⟩
    simp [runAppends, hap, hrun]

def c2H0 : List JsMsg := [some { role := "system", content := "prompt" }]

def c2Batches : List (Int × List Message) :=
  [(0, [{ role := "user", content := "hola" }, { role := "assistant", content := "r1" }]),
   (1, [{ role := "user", content := "precio" }, { role := "assistant", content := "r2" }]),
   (2, [{ role := "user", content := "a" }, { role := "assistant", content := "r3" }]),
   (3, [{ role := "user", content := "b" }, { role := "assistant", content := "r4" }]),
   (4, [{ role := "user", content := "c" }, { role := "assistant", content := "r5" }]),
   (5, [{ role := "user", content := "d" }, { role := "assistant", content := "r6" }])]

/-- Witness for C2 at a concrete initialized session and six appended turns
(enough to trigger pruning). -/
theorem history_head_system_invariant_witness :
    invB c2H0 = true ∧
    ∃ hf, runAppends c2H0 c2Batches = .ok hf ∧
      (hf = [] ∨ ∃ m t, hf = some m :: t ∧ m.role = "system") :=
  ⟨by decide, history_head_system_invariant c2H0 c2Batches (by decide)⟩

/-- Claim C3 (amended): every successful `appendToHistory` returns (and
persists) at most `MAX_HISTORY_LENGTH` messages; and when the current history
is a system message followed by non-system entries, the batch contains no
system-role message, and the concatenation exceeds the maximum, the result is
exactly that leading system message followed by the most recent
`MAX_HISTORY_LENGTH - 1` entries of the remainder in their original order.
(The claim's unconditional shape statement fails when a system-role message
sits anywhere past the head: the source keeps the first system message `find`
locates and drops every other system-role entry, rather than keeping the
first message and the tail's most recent nine.) -/
theorem append_length_bound_and_prune_shape :
    (∀ (now : Int) (currentHistory : List JsMsg) (newMessages : List Message) (res : List JsMsg),
        appendToHistory now currentHistory newMessages = .ok res →
        res.length ≤ MAX_HISTORY_LENGTH) ∧
    (∀ (now : Int) (sys : Message) (rest : List JsMsg) (newMessages : List Message),
        sys.role = "system" →
        rest.all nonSystemSlot = true →
        newMessages.all (fun m => !(m.role == "system")) = true →
        MAX_HISTORY_LENGTH < rest.length + newMessages.length + 1 →
        appendToHistory now (some sys :: rest) newMessages =
          .ok (some sys ::
            (rest ++ (newMessages.map (stampMsg now)).map some).drop
              (rest.length + newMessages.length - (MAX_HISTORY_LENGTH - 1)))) := by
  constructor
  · intro now currentHistory newMessages res h
    have hp : prune (currentHistory ++ (newMessages.map (stampMsg now)).map some) = .ok res := h
    generalize currentHistory ++ (newMessages.map (stampMsg now)).map some = l at hp
    unfold prune at hp
    split at hp
    · rcases hf : findSystem l with e | f
      · rw [hf] at hp; exact absurd hp (by simp)
      · rw [hf] at hp
        rcases hr : filterNonSystem l with e | r
        · rw [hr] at hp; exact absurd hp (by simp)
        · rw [hr] at hp
          obtain rfl : f :: r.drop (r.length - (MAX_HISTORY_LENGTH - 1)) = res := by
            simpa using hp
          simp only [List.length_cons, List.length_drop, MAX_HISTORY_LENGTH]
          omega
    · obtain rfl : l = res := by simpa using hp
      rename_i hguard
      simp only [not_lt] at hguard
      exact hguard
  · intro now sys rest newMessages hrole hrest hnew hlen
    have htail : (rest ++ (newMessages.map (stampMsg now)).map some).all
        nonSystemSlot = true := by
      rw [List.all_append, Bool.and_eq_true]
      refine ⟨hrest, ?_⟩
      rw [List.all_eq_true]
      intro x hx
      obtain ⟨m2, hm2, rfl⟩ := List.mem_map.mp hx
      obtain ⟨m, hm, rfl⟩ := List.mem_map.mp hm2
      have := List.all_eq_true.mp hnew m hm
      simpa [nonSystemSlot, stampMsg] using this
    show prune ((some sys :: rest) ++ (newMessages.map (stampMsg now)).map some) = _
    rw [List.cons_append]
    have hfil : filterNonSystem (some sys ::
        (rest ++ (newMessages.map (stampMsg now)).map some)) =
        .ok (rest ++ (newMessages.map (stampMsg now)).map some) := by
      have hr := filterNonSystem_all_nonSystem _ htail
      simp only [filterNonSystem]
      rw [hr, hrole]
      rfl
    have hlen2 : (rest ++ (newMessages.map (stampMsg now)).map some).length =
        rest.length + newMessages.length := by
      simp
    have hguard : MAX_HISTORY_LENGTH <
        (some sys :: (rest ++ (newMessages.map (stampMsg now)).map some)).length := by
      simp only [List.length_cons, hlen2]
      omega
    unfold prune
    rw [if_pos hguard, findSystem_cons_system sys hrole, hfil]
    dsimp only
    rw [hlen2]

def c3wSys : Message := { role := "system", content := "prompt" }

def c3wRest : List JsMsg :=
  [some { role := "user", content := "u1" }, some { role := "assistant", content := "a1" },
   some { role := "user", content := "u2" }, some { role := "assistant", content := "a2" },
   some { role := "user", content := "u3" }, some { role := "assistant", content := "a3" },
   some { role := "user", content := "u4" }, some { role := "assistant", content := "a4" },
   some { role := "user", content := "u5" }]

def c3wNew : List Message :=
  [{ role := "user", content := "u6" }, { role := "assistant", content := "a6" }]

/-- Witness for C3 (amended) at a concrete over-full history: both the length
bound and the prune shape are realized. -/
theorem append_length_bound_and_prune_shape_witness :
    (c3wSys.role = "system" ∧ c3wRest.all nonSystemSlot = true ∧
      MAX_HISTORY_LENGTH < c3wRest.length + c3wNew.length + 1) ∧
    appendToHistory 0 (some c3wSys :: c3wRest) c3wNew =
      .ok (some c3wSys ::
        (c3wRest ++ (c3wNew.map (stampMsg 0)).map some).drop
          (c3wRest.length + c3wNew.length - (MAX_HISTORY_LENGTH - 1))) :=
  ⟨⟨rfl, by decide, by decide⟩,
    append_length_bound_and_prune_shape.2 0 c3wSys c3wRest c3wNew rfl (by decide) (by decide)
      (by decide)⟩

def c3Sys : Message := { role := "system", content := "p" }

def c3Sys2 : Message := { role := "system", content := "q" }

/-- A stored history of ten messages whose head is the system message but
which also contains a second system-role entry further down. -/
def c3Cur : List JsMsg :=
  [some c3Sys,
   some { role := "user", content := "1" }, some { role := "user", content := "2" },
   some { role := "user", content := "3" }, some { role := "user", content := "4" },
   some { role := "user", content := "5" }, some { role := "user", content := "6" },
   some { role := "user", content := "7" }, some { role := "user", content := "8" },
   some c3Sys2]

def c3New : List Message := [{ role := "user", content := "9" }]

/-- What the source actually returns for `c3Cur`/`c3New`: the second
system-role entry is dropped entirely and the oldest user turn survives. -/
def c3Actual : List JsMsg :=
  [some c3Sys,
   some { role := "user", content := "1" }, some { role := "user", content := "2" },
   some { role := "user", content := "3" }, some { role := "user", content := "4" },
   some { role := "user", content := "5" }, some { role := "user", content := "6" },
   some { role := "user", content := "7" }, some { role := "user", content := "8" },
   some { role := "user", content := "9", timestamp := some 0 }]

/-- What claim C3's shape sentence predicts for `c3Cur`/`c3New`: the first
message followed by the most recent nine entries of the remainder. -/
def c3Claimed : List JsMsg :=
  some c3Sys ::
    (c3Cur.tail ++ (c3New.map (stampMsg 0)).map some).drop
      (c3Cur.tail.length + c3New.length - (MAX_HISTORY_LENGTH - 1))

/-- Counterexample to C3 as stated: on a concrete over-full history the
result is not "the first message plus the most recent nine entries of the
remainder" — the source instead filters out every system-role entry and keeps
an older user turn. -/
theorem append_prune_shape_counterexample :
    appendToHistory 0 c3Cur c3New = .ok c3Actual ∧ c3Actual ≠ c3Claimed := by
  decide

/- ===================== sanitization (C9) ===================== -/

lemma chars_no_nl_of_all (s : String)
    (hs : s.data.all (fun c => !(c == '\n') && !(c == '\r')) = true) :
    ∀ c ∈ s.data, c ≠ '\n' ∧ c ≠ '\r' := by
  intro c hc
  have := List.all_eq_true.mp hs c hc
  simp at this
  exact this

lemma collapseNewlines_no_newline (l : List Char) :
    '\n' ∉ collapseNewlines l ∧ '\r' ∉ collapseNewlines l := by
  induction l using collapseNewlines.induct <;> simp [collapseNewlines] <;> try tauto

lemma clean_no_newline (s : String) : ∀ c ∈ (clean s).data, c ≠ '\n' ∧ c ≠ '\r' := by
  intro c hc
  have hc2 : c ∈ (collapseNewlines s.data).map (fun x => if x == '"' then Char.ofNat 39 else x) := hc
  obtain ⟨d, hd, hde⟩ := List.mem_map.mp hc2
  by_cases h : d == '"'
  · have hcq : c = Char.ofNat 39 := by rw [← hde, if_pos h]
    subst hcq
    decide
  · have hcd : c = d := by rw [← hde, if_neg h]
    subst hcd
    have hnl := collapseNewlines_no_newline s.data
    exact ⟨fun he => hnl.1 (he ▸ hd), fun he => hnl.2 (he ▸ hd)⟩

/-- Claim C9 (amended): of the text fields crossing into the product
descriptions of the prompt, exactly `title` and `description_short` are
sanitized with the newline-collapsing, quote-converting `clean`; the id,
price renderings, `slug` and image URL are interpolated verbatim.  Hence the
built description is newline-free for arbitrary titles and short
descriptions, provided the unsanitized fields are themselves newline-free —
the claim's "every text field is sanitized" fails for `slug` and the image
URL (see the counterexample). -/
theorem title_description_sanitized (p : Product)
    (hid : ∀ c ∈ p.id.data, c ≠ '\n' ∧ c ≠ '\r')
    (hpr : ∀ c ∈ (p.priceRegular.getD "N/A").data, c ≠ '\n' ∧ c ≠ '\r')
    (hps : ∀ c ∈ (p.priceSale.getD "N/A").data, c ≠ '\n' ∧ c ≠ '\r')
    (hslug : ∀ c ∈ p.slug.data, c ≠ '\n' ∧ c ≠ '\r')
    (himg : ∀ c ∈ (p.image_default.head?.getD "undefined").data, c ≠ '\n' ∧ c ≠ '\r') :
    ∀ c ∈ (productDescription p).data, c ≠ '\n' ∧ c ≠ '\r' := by
  intro c hc
  simp only [productDescription, String.data_append, List.mem_append] at hc
  simp only [or_assoc] at hc
  rcases hc with h | h | h | h | h | h | h | h | h | h | h | h | h | h | h | h
  all_goals first
    | exact hid c h
    | exact hpr c h
    | exact hps c h
    | exact hslug c h
    | exact himg c h
    | exact clean_no_newline _ c h
    | exact chars_no_nl_of_all _ (by decide) c h

def c9Good : Product :=
  { id := "p2", title := "Linea\nuno \"dos\"", description_short := "desc\r\ncon saltos",
    priceRegular := some "50", priceSale := some "40", slug := "linea-uno",
    image_default := ["img-2"] }

/-- Witness for C9 (amended): a product whose title and short description
contain newlines and double quotes still yields a newline-free description. -/
theorem title_description_sanitized_witness :
    (∀ c ∈ c9Good.id.data, c ≠ '\n' ∧ c ≠ '\r') ∧
    ∀ c ∈ (productDescription c9Good).data, c ≠ '\n' ∧ c ≠ '\r' :=
  ⟨by decide,
    title_description_sanitized c9Good (by decide) (by decide) (by decide) (by decide)
      (by decide)⟩

def c9Bad : Product :=
  { id := "p1", title := "Reloj", description_short := "bueno",
    priceRegular := some "100", priceSale := none, slug := "promo\nrebaja",
    image_default := ["img-1"] }

/-- Counterexample to C9 as stated: a newline inside `slug` crosses into the
built description verbatim — the actual description differs from the
all-fields-sanitized one the spec sentence demands, and still contains a raw
newline, which full sanitization would have collapsed to a space. -/
theorem slug_not_sanitized_counterexample :
    productDescription c9Bad ≠ productDescriptionClaimed c9Bad ∧
    '\n' ∈ (productDescription c9Bad).data ∧
    '\n' ∉ (productDescriptionClaimed c9Bad).data := by
  decide

/- ===================== enrichment frame (C10) ===================== -/

/-- Claim C10: enrichment never touches `type`, `productId`, `quantity` or
any additional model-supplied field — whatever branch is taken, only the six
catalog-backed fields can change. -/
theorem enrichment_frame (allProducts : List Product) (a : Action) :
    (enrichAction allProducts a).type = a.type ∧
    (enrichAction allProducts a).productId = a.productId ∧
    (enrichAction allProducts a).quantity = a.quantity ∧
    (enrichAction allProducts a).extra = a.extra := by
  unfold enrichAction
  split
  · split
    · split <;> simp
    · simp
  · simp

/- ===================== vector search (C7) ===================== -/

/-- Claim C7: with the vector-store collaborator honouring its contract
(`similaritySearch` returns at most `k` of the indexed documents, ordered by
nondecreasing distance), `searchProducts` returns exactly those documents'
product ids in that order — so at most `k` ids, each the id of an indexed
product, nearest-first; and for an empty product list it returns `[]` with
the state (hence the call trace) untouched, i.e. without any embedding
call. -/
theorem searchProducts_bounded_membership_order
    (env : Env) (domain query apiKey : String) (products : List Product) (k : Nat)
    (st : St) (res : List Doc) (dist : Doc → Int)
    (hidx : assocGet st.indexCache domain = none)
    (hbuild : env.fromDocuments (mkDocuments products) = .ok ())
    (hsim : env.similaritySearch (mkDocuments products) query k = .ok res)
    (hsub : ∀ d ∈ res, d ∈ mkDocuments products)
    (hlen : res.length ≤ k)
    (hsorted : res.Pairwise (fun a b => dist a ≤ dist b))
    (hne : products ≠ []) :
    (searchProducts env domain products query apiKey k st).map Prod.fst =
      .ok (res.map Doc.productId) ∧
    (res.map Doc.productId).length ≤ k ∧
    (∀ i ∈ res.map Doc.productId, i ∈ products.map Product.id) ∧
    (res.map dist).Pairwise (· ≤ ·) ∧
    (∀ st2, searchProducts env domain [] query apiKey k st2 = .ok ([], st2)) := by
  obtain ⟨p0, ptl, rfl⟩ := List.exists_cons_of_ne_nil hne
  refine ⟨?_, ?_, ?_, ?_, fun st2 => rfl⟩
  · simp only [searchProducts, buildVectorStore, List.isEmpty_cons, Bool.false_eq_true,
      if_false, hidx, hbuild, hsim]
    rfl
  · simpa using hlen
  · intro i hi
    obtain ⟨d, hd, rfl⟩ := List.mem_map.mp hi
    obtain ⟨p, hp, rfl⟩ := List.mem_map.mp (hsub d hd)
    exact List.mem_map.mpr ⟨p, hp, rfl⟩
  · exact List.pairwise_map.mpr hsorted

def c7Prods : List Product :=
  [{ id := "a", title := "A", description_short := "da", slug := "a" },
   { id := "b", title := "B", description_short := "db", slug := "b" }]

def c7Env : Env :=
  { now := 0,
    productsByDomain := fun _ => .ok c7Prods,
    productsByIds := fun _ => .ok [],
    configData := fun _ => .ok [],
    fromDocuments := fun _ => .ok (),
    similaritySearch := fun docs _ _ => .ok (docs.drop 1),
    completionContent := .ok "",
    parseJson := fun _ => none }

/-- Witness for C7 at a concrete two-product store whose search returns the
second indexed document. -/
theorem searchProducts_bounded_membership_order_witness :
    (∀ d ∈ (mkDocuments c7Prods).drop 1, d ∈ mkDocuments c7Prods) ∧
    (searchProducts c7Env "d" c7Prods "q" "key" 5 ({} : St)).map Prod.fst =
      .ok (((mkDocuments c7Prods).drop 1).map Doc.productId) ∧
    (∀ i ∈ ((mkDocuments c7Prods).drop 1).map Doc.productId, i ∈ c7Prods.map Product.id) :=
  ⟨by decide,
    (searchProducts_bounded_membership_order c7Env "d" "q" "key" c7Prods 5 ({} : St)
      ((mkDocuments c7Prods).drop 1) (fun _ => 0) (by decide) (by decide) (by decide)
      (by decide) (by decide) (by decide) (by decide)).1,
    (searchProducts_bounded_membership_order c7Env "d" "q" "key" c7Prods 5 ({} : St)
      ((mkDocuments c7Prods).drop 1) (fun _ => 0) (by decide) (by decide) (by decide)
      (by decide) (by decide) (by decide) (by decide)).2.2.1⟩

/- ===================== ranked re-sort (C8) ===================== -/

lemma jsIndexOf_mem {l : List String} {x : String} (h : x ∈ l) :
    jsIndexOf l x = (List.indexOf x l : Int) := by
  simp [jsIndexOf, List.indexOf_lt_length.mpr h]

lemma jsIndexOf_inj {l : List String} {x y : String} (hx : x ∈ l) (hy : y ∈ l)
    (h : jsIndexOf l x = jsIndexOf l y) : x = y := by
  rw [jsIndexOf_mem hx, jsIndexOf_mem hy] at h
  have h2 : List.indexOf x l = List.indexOf y l := by exact_mod_cast h
  exact (List.indexOf_inj hx hy).mp h2

lemma indexOf_getElem_nodup {l : List String} (hnd : l.Nodup) (i : Nat) (hi : i < l.length) :
    List.indexOf l[i] l = i := by
  have hmem : l[i] ∈ l := List.getElem_mem hi
  have hlt := List.indexOf_lt_length.mpr hmem
  have hg := List.getElem_indexOf hlt
  exact (List.Nodup.getElem_inj_iff hnd).mp hg

/-- Claim C8: when the batched re-fetch returns exactly one record per ranked
id (in whatever order the store produced them), the re-sort by
`ids.indexOf(record.id)` restores exactly the ranked order: the sorted
records' ids coincide with the ranked id list. -/
theorem refetch_resort_restores_ranked_order (ids : List String) (fetched : List Product)
    (hnd : ids.Nodup) (hperm : (fetched.map Product.id).Perm ids) :
    (sortByRank ids fetched).map Product.id = ids := by
  have hpermSort : (sortByRank ids fetched).Perm fetched :=
    List.perm_insertionSort _ _
  have hpermIds : ((sortByRank ids fetched).map Product.id).Perm ids :=
    (hpermSort.map Product.id).trans hperm
  haveI : IsTotal Product (fun a b => rankOf ids a ≤ rankOf ids b) :=
    ⟨fun a b => le_total _ _⟩
  haveI : IsTrans Product (fun a b => rankOf ids a ≤ rankOf ids b) :=
    ⟨fun _ _ _ h1 h2 => le_trans h1 h2⟩
  have hsorted : List.Sorted (fun a b => rankOf ids a ≤ rankOf ids b) (sortByRank ids fetched) :=
    List.sorted_insertionSort _ _
  have hndIds : ((sortByRank ids fetched).map Product.id).Nodup :=
    hpermIds.nodup_iff.mpr hnd
  have hnd2 : (sortByRank ids fetched).Pairwise (fun a b => Product.id a ≠ Product.id b) :=
    List.pairwise_map.mp hndIds
  have hstrict : (sortByRank ids fetched).Pairwise
      (fun a b => jsIndexOf ids a.id < jsIndexOf ids b.id) := by
    have hcomb := hsorted.and hnd2
    refine hcomb.imp_of_mem ?_
    intro a b ha hb hab
    obtain ⟨hle, hne⟩ := hab
    have hamem : a.id ∈ ids :=
      hpermIds.mem_iff.mp (List.mem_map_of_mem Product.id ha)
    have hbmem : b.id ∈ ids :=
      hpermIds.mem_iff.mp (List.mem_map_of_mem Product.id hb)
    rcases lt_or_eq_of_le hle with h | h
    · exact h
    · exact absurd (jsIndexOf_inj hamem hbmem h) hne
  have hs1 : List.Sorted (fun x y => jsIndexOf ids x < jsIndexOf ids y)
      ((sortByRank ids fetched).map Product.id) :=
    List.pairwise_map.mpr hstrict
  have hs2 : List.Sorted (fun x y => jsIndexOf ids x < jsIndexOf ids y) ids := by
    rw [List.Sorted, List.pairwise_iff_getElem]
    intro i j hi hj hij
    rw [jsIndexOf_mem (List.getElem_mem hi), jsIndexOf_mem (List.getElem_mem hj),
      indexOf_getElem_nodup hnd i hi, indexOf_getElem_nodup hnd j hj]
    exact_mod_cast hij
  haveI : IsAntisymm String (fun x y => jsIndexOf ids x < jsIndexOf ids y) :=
    ⟨fun _ _ h1 h2 => absurd h2 (not_lt.mpr (le_of_lt h1))⟩
  exact List.eq_of_perm_of_sorted hpermIds hs1 hs2

def c8Ids : List String := ["b", "a"]

def c8Fetched : List Product :=
  [{ id := "a", title := "A", description_short := "da", slug := "a" },
   { id := "b", title := "B", description_short := "db", slug := "b" }]

/-- Witness for C8: two records fetched in store order `[a, b]` are re-sorted
to the ranked order `[b, a]`. -/
theorem refetch_resort_restores_ranked_order_witness :
    c8Ids.Nodup ∧ (c8Fetched.map Product.id).Perm c8Ids ∧
    (sortByRank c8Ids c8Fetched).map Product.id = c8Ids :=
  ⟨by decide, by decide,
    refetch_resort_restores_ranked_order c8Ids c8Fetched (by decide) (by decide)⟩


/- ===================== orchestrator lemmas ===================== -/

/-- The product-description string built from the ranked search results and
the re-fetched records (the `productDescriptions` value of step 4). -/
def rankedDescriptions (res : List Doc) (fetched : List Product) : String :=
  String.intercalate " | " ((sortByRank (res.map Doc.productId) fetched).map productDescription)

/-- The one-element history a fresh session is initialized with:
`[{ role: 'system', content: systemMessage }]`. -/
def initialHistory (systemMessage : String) : List JsMsg :=
  [some { role := "system", content := systemMessage }]

/-- The conversation document a fresh session persists. -/
def freshConv (userEmail merchandId systemMessage : String) : Conv :=
  { userEmail := userEmail,
    merchandId := some merchandId,
    messages := initialHistory systemMessage }

/-- The action produced by enriching `a` from the catalog record `prod`. -/
def enrichedWith (a : Action) (prod : Product) : Action :=
  { a with
    url := some ("/product/" ++ prod.slug),
    price_sale := prod.priceSale,
    title := some prod.title,
    price_regular := prod.priceRegular,
    image := prod.image_default.head?,
    slug := some prod.slug }

/-- The response assembled from a successfully parsed reply on the success
path of the `try` block. -/
def replyResponse (ps : List Product) (reply : AssistantReply) : ChatResponse :=
  { message := reply.message.getD "Respuesta vacía.",
    audio_description := reply.audio_description.getD "",
    action := match reply.action with
      | some a => enrichAction ps a
      | none => defaultNoneAction }

lemma assocGet_assocSet_self {κ α : Type} [DecidableEq κ] (l : List (κ × α)) (k : κ) (v : α) :
    assocGet (assocSet l k v) k = some v := by
  induction l with
  | nil => simp [assocGet, assocSet]
  | cons p rest ih =>
    obtain ⟨k0, v0⟩ := p
    by_cases h : k0 = k
    · subst h
      simp [assocGet, assocSet]
    · simp only [assocSet, if_neg h]
      simp only [assocGet, List.find?_cons, decide_eq_true_eq]
      simp only [assocGet] at ih
      simp [h, ih]

lemma reach_existing_session
    (env : Env) (domain userMessage apiKey userId userEmail merchandId : String) (st : St)
    (p0 : Product) (ps : List Product) (docs res : List Doc) (fetched : List Product)
    (cfg : Config) (conv : Conv)
    (hp : assocGet st.productCache domain = some (p0 :: ps))
    (hidx : assocGet st.indexCache domain = some docs)
    (hsim : env.similaritySearch docs userMessage 5 = .ok res)
    (hfetch : env.productsByIds (res.map Doc.productId) = .ok fetched)
    (hcfg : assocGet st.configCache domain = some cfg)
    (hconv : assocGet st.conversations (domain, userId) = some conv) :
    processChatWithGPT env domain userMessage apiKey userId userEmail merchandId st =
      .ok (completeTurn env domain userMessage userId userEmail (p0 :: ps) conv.messages
        (logCall (logCall st (.embedQuery userMessage)) (.dbByIds (res.map Doc.productId)))) := by
  simp only [processChatWithGPT, loadProducts, hp, searchProducts, buildVectorStore, hidx, hsim,
    fetchRelevant, hfetch, fetchConfig, hcfg, loadOrInitSession, logCall, hconv,
    List.isEmpty_cons, Bool.false_eq_true, if_false]

lemma reach_fresh_session
    (env : Env) (domain userMessage apiKey userId userEmail merchandId : String) (st : St)
    (p0 : Product) (ps : List Product) (docs res : List Doc) (fetched : List Product)
    (cfg : Config)
    (hp : assocGet st.productCache domain = some (p0 :: ps))
    (hidx : assocGet st.indexCache domain = some docs)
    (hsim : env.similaritySearch docs userMessage 5 = .ok res)
    (hfetch : env.productsByIds (res.map Doc.productId) = .ok fetched)
    (hcfg : assocGet st.configCache domain = some cfg)
    (hconv : assocGet st.conversations (domain, userId) = none) :
    processChatWithGPT env domain userMessage apiKey userId userEmail merchandId st =
      .ok (completeTurn env domain userMessage userId userEmail (p0 :: ps)
        (initialHistory (buildSystemMessage domain (rankedDescriptions res fetched) cfg))
        (setHistorySt
          (logCall (logCall st (.embedQuery userMessage)) (.dbByIds (res.map Doc.productId)))
          domain userId userEmail (some merchandId)
          (initialHistory (buildSystemMessage domain (rankedDescriptions res fetched) cfg)))) := by
  simp only [processChatWithGPT, loadProducts, hp, searchProducts, buildVectorStore, hidx, hsim,
    fetchRelevant, hfetch, fetchConfig, hcfg, loadOrInitSession, logCall, hconv,
    List.isEmpty_cons, Bool.false_eq_true, if_false, rankedDescriptions, initialHistory]

lemma completeTurn_error (env : Env) (domain userMessage userId userEmail : String)
    (ps : List Product) (conv : List JsMsg) (st : St) (e : String)
    (he : env.completionContent = .error e) :
    completeTurn env domain userMessage userId userEmail ps conv st =
      (fallbackResponse,
        logCall st (.completion (conv.map msgView ++ [some ("user", userMessage)]))) := by
  simp only [completeTurn, he]

lemma completeTurn_badParse (env : Env) (domain userMessage userId userEmail : String)
    (ps : List Product) (conv : List JsMsg) (st : St) (raw : String)
    (hok : env.completionContent = .ok raw) (hparse : env.parseJson raw = none) :
    completeTurn env domain userMessage userId userEmail ps conv st =
      (fallbackResponse,
        logCall st (.completion (conv.map msgView ++ [some ("user", userMessage)]))) := by
  simp only [completeTurn, hok, hparse]

lemma appendTurn_ok (env : Env) (domain userId userEmail userMessage raw : String) (st : St)
    (h : ∀ c, assocGet st.conversations (domain, userId) = some c → ∀ x ∈ c.messages, x.isSome) :
    ∃ st2, appendTurn env domain userId userEmail userMessage raw st = .ok st2 := by
  have hall : ∀ x ∈ ((assocGet st.conversations (domain, userId)).map Conv.messages).getD [],
      x.isSome := by
    rcases hc : assocGet st.conversations (domain, userId) with _ | c
    · intro x hx
      simp at hx
    · intro x hx
      exact h c hc x (by simpa using hx)
  obtain ⟨res, hres⟩ := appendToHistory_ok_of_allSome env.now _
    [{ role := "user", content := userMessage }, { role := "assistant", content := raw }] hall
  exact ⟨setHistorySt st domain userId userEmail none res, by simp only [appendTurn, hres]⟩

lemma completeTurn_success (env : Env) (domain userMessage userId userEmail : String)
    (ps : List Product) (conv : List JsMsg) (st : St) (raw : String) (reply : AssistantReply)
    (hok : env.completionContent = .ok raw)
    (hparse : env.parseJson raw = some reply)
    (hwf : ∀ c, assocGet st.conversations (domain, userId) = some c → ∀ x ∈ c.messages, x.isSome) :
    ∃ st2, completeTurn env domain userMessage userId userEmail ps conv st =
      (replyResponse ps reply, st2) := by
  have hwf2 : ∀ c, assocGet
      (logCall st (.completion (conv.map msgView ++ [some ("user", userMessage)]))).conversations
      (domain, userId) = some c → ∀ x ∈ c.messages, x.isSome := hwf
  obtain ⟨st2, h2⟩ := appendTurn_ok env domain userId userEmail userMessage raw _ hwf2
  refine ⟨st2, ?_⟩
  simp only [completeTurn, hok, hparse, h2, replyResponse]

lemma enrichAction_fields (ps : List Product) (a : Action) (pid : String) (prod : Product)
    (htype : a.type = some "add_to_cart") (hpid : a.productId = some pid) (hpne : pid ≠ "")
    (hfind : ps.find? (fun p => p.id == pid) = some prod) :
    enrichAction ps a = enrichedWith a prod := by
  unfold enrichAction enrichedWith
  rw [htype, hpid]
  have hcond : ((some "add_to_cart" == some "add_to_cart") && jsTruthy (some pid)) = true := by
    simp [jsTruthy, hpne]
  rw [if_pos hcond]
  dsimp only
  rw [hfind]

/- ===================== C1 ===================== -/

def demoProduct : Product :=
  { id := "p1", title := "Reloj", description_short := "d", slug := "reloj" }

def c1Env : Env :=
  { now := 0,
    productsByDomain := fun _ => .ok [demoProduct],
    productsByIds := fun _ => .ok [],
    configData := fun _ => .error "network down",
    fromDocuments := fun _ => .ok (),
    similaritySearch := fun _ _ _ => .ok [],
    completionContent := .ok "x",
    parseJson := fun _ => none }

def c1St : St :=
  { productCache := [("d", [demoProduct])],
    indexCache := [("d", mkDocuments [demoProduct])] }

/-- Counterexample to C1 as stated: a configuration-collaborator failure
(inside the claimed step range 2–5) is not caught by `processChatWithGPT` —
the call rejects with the configuration error instead of resolving with the
fallback reply, because `fetchConfig` runs outside the `try` block. -/
theorem configError_not_caught :
    processChatWithGPT c1Env "d" "hola" "key" "u" "e" "m" c1St =
      .error "Error de configuración para el dominio d" := by
  decide

/-- Claim C1 (amended): of the failures at steps 2–5, exactly the ones inside
the `try` block — a completion-service call error and a JSON-decode failure
of the completion payload — are caught inside `processChatWithGPT` and mapped
to the fixed apologetic fallback reply with action type `none`; config-fetch
and embedding/vector-search errors occur before the `try` and propagate to
the caller (see the counterexample). -/
theorem completion_and_parse_failures_return_fallback
    (env : Env) (domain userMessage apiKey userId userEmail merchandId : String) (st : St)
    (p0 : Product) (ps : List Product) (docs res : List Doc) (fetched : List Product)
    (cfg : Config)
    (hp : assocGet st.productCache domain = some (p0 :: ps))
    (hidx : assocGet st.indexCache domain = some docs)
    (hsim : env.similaritySearch docs userMessage 5 = .ok res)
    (hfetch : env.productsByIds (res.map Doc.productId) = .ok fetched)
    (hcfg : assocGet st.configCache domain = some cfg)
    (herr : (∃ e, env.completionContent = .error e) ∨
            (∃ raw, env.completionContent = .ok raw ∧ env.parseJson raw = none)) :
    ∃ st2, processChatWithGPT env domain userMessage apiKey userId userEmail merchandId st =
      .ok (fallbackResponse, st2) := by
  rcases hconv : assocGet st.conversations (domain, userId) with _ | conv
  · rw [reach_fresh_session env domain userMessage apiKey userId userEmail merchandId st
      p0 ps docs res fetched cfg hp hidx hsim hfetch hcfg hconv]
    rcases herr with ⟨e, he⟩ | ⟨raw, hok, hparse⟩
    · rw [completeTurn_error env domain userMessage userId userEmail _ _ _ e he]
      exact ⟨_, rfl⟩
    · rw [completeTurn_badParse env domain userMessage userId userEmail _ _ _ raw hok hparse]
      exact ⟨_, rfl⟩
  · rw [reach_existing_session env domain userMessage apiKey userId userEmail merchandId st
      p0 ps docs res fetched cfg conv hp hidx hsim hfetch hcfg hconv]
    rcases herr with ⟨e, he⟩ | ⟨raw, hok, hparse⟩
    · rw [completeTurn_error env domain userMessage userId userEmail _ _ _ e he]
      exact ⟨_, rfl⟩
    · rw [completeTurn_badParse env domain userMessage userId userEmail _ _ _ raw hok hparse]
      exact ⟨_, rfl⟩

def c1wEnv : Env :=
  { now := 0,
    productsByDomain := fun _ => .ok [demoProduct],
    productsByIds := fun _ => .ok [],
    configData := fun _ => .ok [],
    fromDocuments := fun _ => .ok (),
    similaritySearch := fun _ _ _ => .ok [],
    completionContent := .error "rate limited",
    parseJson := fun _ => none }

def c1wSt : St :=
  { productCache := [("d", [demoProduct])],
    indexCache := [("d", mkDocuments [demoProduct])],
    configCache := [("d", "cfg")] }

/-- Witness for C1 (amended): a concrete turn whose completion call fails is
answered with the fallback reply. -/
theorem completion_and_parse_failures_return_fallback_witness :
    (assocGet c1wSt.productCache "d" = some [demoProduct] ∧
      c1wEnv.completionContent = .error "rate limited") ∧
    ∃ st2, processChatWithGPT c1wEnv "d" "hola" "key" "u" "e" "m" c1wSt =
      .ok (fallbackResponse, st2) :=
  ⟨⟨by decide, rfl⟩,
    completion_and_parse_failures_return_fallback c1wEnv "d" "hola" "key" "u" "e" "m" c1wSt
      demoProduct [] (mkDocuments [demoProduct]) [] [] "cfg"
      (by decide) (by decide) rfl rfl (by decide)
      (Or.inl ⟨"rate limited", rfl⟩)⟩

/- ===================== C4 ===================== -/

/-- Claim C4: when the parsed action is `add_to_cart` with a (truthy)
`productId` resolving in the tenant's cached catalog, the returned action's
`url`, `price_sale`, `price_regular`, `title`, `image` and `slug` equal the
catalog record's authoritative values, regardless of what the model supplied
for those fields (the action `a` is arbitrary). -/
theorem add_to_cart_enrichment_authoritative
    (env : Env) (domain userMessage apiKey userId userEmail merchandId : String) (st : St)
    (p0 : Product) (ps : List Product) (docs res : List Doc) (fetched : List Product)
    (cfg : Config) (raw : String) (reply : AssistantReply) (a : Action) (pid : String)
    (prod : Product)
    (hp : assocGet st.productCache domain = some (p0 :: ps))
    (hidx : assocGet st.indexCache domain = some docs)
    (hsim : env.similaritySearch docs userMessage 5 = .ok res)
    (hfetch : env.productsByIds (res.map Doc.productId) = .ok fetched)
    (hcfg : assocGet st.configCache domain = some cfg)
    (hwf : ∀ c, assocGet st.conversations (domain, userId) = some c →
      ∀ x ∈ c.messages, x.isSome)
    (hok : env.completionContent = .ok raw)
    (hparse : env.parseJson raw = some reply)
    (haction : reply.action = some a)
    (htype : a.type = some "add_to_cart")
    (hpid : a.productId = some pid)
    (hpne : pid ≠ "")
    (hfind : (p0 :: ps).find? (fun p => p.id == pid) = some prod) :
    ∃ resp st2,
      processChatWithGPT env domain userMessage apiKey userId userEmail merchandId st =
        .ok (resp, st2) ∧
      resp.action.url = some ("/product/" ++ prod.slug) ∧
      resp.action.price_sale = prod.priceSale ∧
      resp.action.price_regular = prod.priceRegular ∧
      resp.action.title = some prod.title ∧
      resp.action.image = prod.image_default.head? ∧
      resp.action.slug = some prod.slug := by
  have henr := enrichAction_fields (p0 :: ps) a pid prod htype hpid hpne hfind
  rcases hconv : assocGet st.conversations (domain, userId) with _ | conv
  · rw [reach_fresh_session env domain userMessage apiKey userId userEmail merchandId st
      p0 ps docs res fetched cfg hp hidx hsim hfetch hcfg hconv]
    have hwf2 : ∀ c, assocGet
        (setHistorySt
          (logCall (logCall st (.embedQuery userMessage)) (.dbByIds (res.map Doc.productId)))
          domain userId userEmail (some merchandId)
          (initialHistory (buildSystemMessage domain (rankedDescriptions res fetched) cfg))).conversations
        (domain, userId) = some c → ∀ x ∈ c.messages, x.isSome := by
      intro c hc
      have hconvs : (setHistorySt
          (logCall (logCall st (.embedQuery userMessage)) (.dbByIds (res.map Doc.productId)))
          domain userId userEmail (some merchandId)
          (initialHistory (buildSystemMessage domain (rankedDescriptions res fetched) cfg))).conversations =
          assocSet st.conversations (domain, userId)
            (freshConv userEmail merchandId
              (buildSystemMessage domain (rankedDescriptions res fetched) cfg)) := rfl
      rw [hconvs, assocGet_assocSet_self] at hc
      obtain rfl := Option.some.inj hc
      intro x hx
      simp [freshConv, initialHistory] at hx
      subst hx
      rfl
    obtain ⟨st2, hct⟩ := completeTurn_success env domain userMessage userId userEmail
      (p0 :: ps) _ _ raw reply hok hparse hwf2
    rw [hct]
    refine ⟨replyResponse (p0 :: ps) reply, st2, rfl, ?_, ?_, ?_, ?_, ?_, ?_⟩ <;>
      simp [replyResponse, haction, henr, enrichedWith]
  · rw [reach_existing_session env domain userMessage apiKey userId userEmail merchandId st
      p0 ps docs res fetched cfg conv hp hidx hsim hfetch hcfg hconv]
    have hwf2 : ∀ c, assocGet
        (logCall (logCall st (.embedQuery userMessage))
          (.dbByIds (res.map Doc.productId))).conversations (domain, userId) = some c →
        ∀ x ∈ c.messages, x.isSome := hwf
    obtain ⟨st2, hct⟩ := completeTurn_success env domain userMessage userId userEmail
      (p0 :: ps) _ _ raw reply hok hparse hwf2
    rw [hct]
    refine ⟨replyResponse (p0 :: ps) reply, st2, rfl, ?_, ?_, ?_, ?_, ?_, ?_⟩ <;>
      simp [replyResponse, haction, henr, enrichedWith]

def c4Prod : Product :=
  { id := "p9", title := "Reloj XY", description_short := "d", priceRegular := some "100",
    priceSale := some "80", slug := "reloj-xy", image_default := ["im1", "im2"] }

def c4Action : Action :=
  { type := some "add_to_cart", productId := some "p9", quantity := some "1",
    url := some "model-url", price_sale := some "1", title := some "modelTitle",
    extra := [("foo", "bar")] }

def c4Reply : AssistantReply :=
  { message := some "listo", audio_description := some "listo", action := some c4Action }

def c4Env : Env :=
  { now := 0,
    productsByDomain := fun _ => .ok [c4Prod],
    productsByIds := fun _ => .ok [c4Prod],
    configData := fun _ => .ok ["cfg"],
    fromDocuments := fun _ => .ok (),
    similaritySearch := fun docs _ _ => .ok docs,
    completionContent := .ok "raw-json",
    parseJson := fun _ => some c4Reply }

def c4St : St :=
  { productCache := [("d", [c4Prod])],
    indexCache := [("d", mkDocuments [c4Prod])],
    configCache := [("d", "cfg")] }

/-- Witness for C4: a model-supplied action carrying wrong `url`,
`price_sale` and `title` values is returned with the catalog's authoritative
values. -/
theorem add_to_cart_enrichment_authoritative_witness :
    (c4Reply.action = some c4Action ∧ c4Action.productId = some "p9") ∧
    ∃ resp st2,
      processChatWithGPT c4Env "d" "hola" "key" "u" "e" "m" c4St = .ok (resp, st2) ∧
      resp.action.url = some ("/product/" ++ c4Prod.slug) ∧
      resp.action.price_sale = c4Prod.priceSale ∧
      resp.action.price_regular = c4Prod.priceRegular ∧
      resp.action.title = some c4Prod.title ∧
      resp.action.image = c4Prod.image_default.head? ∧
      resp.action.slug = some c4Prod.slug :=
  ⟨⟨rfl, rfl⟩,
    add_to_cart_enrichment_authoritative c4Env "d" "hola" "key" "u" "e" "m" c4St
      c4Prod [] (mkDocuments [c4Prod]) (mkDocuments [c4Prod]) [c4Prod] "cfg"
      "raw-json" c4Reply c4Action "p9" c4Prod
      (by decide) (by decide) rfl rfl (by decide)
      (fun c hc => nomatch hc) rfl rfl rfl rfl rfl (by decide) (by decide)⟩

/- ===================== C5 ===================== -/

def c5Env : Env :=
  { now := 0,
    productsByDomain := fun _ => .ok [demoProduct],
    productsByIds := fun _ => .ok [],
    configData := fun _ => .ok [],
    fromDocuments := fun _ => .ok (),
    similaritySearch := fun _ _ _ => .ok [],
    completionContent := .ok "NOT-JSON",
    parseJson := fun _ => none }

/-- Counterexample to C5 as stated: on a turn whose session does not yet
exist, an undecodable completion payload still yields the fallback reply, but
the stored conversation collection is changed — the freshly initialized
session (holding the system prompt) was persisted before the completion
call. -/
theorem invalid_json_fresh_session_persists_system :
    (processChatWithGPT c5Env "d" "hola" "key" "u" "e" "m" ({} : St)).map
      (fun r => (r.1, decide (r.2.conversations = ({} : St).conversations))) =
      .ok (fallbackResponse, false) := by
  decide

/-- Claim C5 (amended): an undecodable completion payload yields the fixed
fallback reply and persists no part of the turn: neither the user message nor
any assistant message is appended — an existing session's stored history is
unchanged, and an absent session holds exactly the freshly initialized system
message (persisted at session creation, before the completion call). -/
theorem invalid_json_fallback_no_turn_persisted
    (env : Env) (domain userMessage apiKey userId userEmail merchandId : String) (st : St)
    (p0 : Product) (ps : List Product) (docs res : List Doc) (fetched : List Product)
    (cfg : Config) (raw : String)
    (hp : assocGet st.productCache domain = some (p0 :: ps))
    (hidx : assocGet st.indexCache domain = some docs)
    (hsim : env.similaritySearch docs userMessage 5 = .ok res)
    (hfetch : env.productsByIds (res.map Doc.productId) = .ok fetched)
    (hcfg : assocGet st.configCache domain = some cfg)
    (hok : env.completionContent = .ok raw)
    (hparse : env.parseJson raw = none) :
    ∃ st2, processChatWithGPT env domain userMessage apiKey userId userEmail merchandId st =
      .ok (fallbackResponse, st2) ∧
      (∀ c, assocGet st.conversations (domain, userId) = some c →
        st2.conversations = st.conversations) ∧
      (assocGet st.conversations (domain, userId) = none →
        st2.conversations = assocSet st.conversations (domain, userId)
          (freshConv userEmail merchandId
            (buildSystemMessage domain (rankedDescriptions res fetched) cfg))) := by
  rcases hconv : assocGet st.conversations (domain, userId) with _ | conv
  · rw [reach_fresh_session env domain userMessage apiKey userId userEmail merchandId st
      p0 ps docs res fetched cfg hp hidx hsim hfetch hcfg hconv]
    rw [completeTurn_badParse env domain userMessage userId userEmail _ _ _ raw hok hparse]
    refine ⟨_, rfl, ?_, ?_⟩
    · intro c hc
      simp at hc
    · intro _
      rfl
  · rw [reach_existing_session env domain userMessage apiKey userId userEmail merchandId st
      p0 ps docs res fetched cfg conv hp hidx hsim hfetch hcfg hconv]
    rw [completeTurn_badParse env domain userMessage userId userEmail _ _ _ raw hok hparse]
    refine ⟨_, rfl, ?_, ?_⟩
    · intro c _
      rfl
    · intro hc
      simp at hc

def c5wSt : St :=
  { productCache := [("d", [demoProduct])],
    indexCache := [("d", mkDocuments [demoProduct])],
    configCache := [("d", "cfg")] }

/-- Witness for C5 (amended): a concrete undecodable payload is answered with
the fallback reply. -/
theorem invalid_json_fallback_no_turn_persisted_witness :
    c5Env.parseJson "NOT-JSON" = none ∧
    ∃ st2, processChatWithGPT c5Env "d" "hola" "key" "u" "e" "m" c5wSt =
      .ok (fallbackResponse, st2) := by
  refine ⟨rfl, ?_⟩
  obtain ⟨st2, h1, _⟩ := invalid_json_fallback_no_turn_persisted c5Env "d" "hola" "key" "u"
    "e" "m" c5wSt demoProduct [] (mkDocuments [demoProduct]) [] [] "cfg" "NOT-JSON"
    (by decide) (by decide) rfl rfl (by decide) rfl rfl
  exact ⟨st2, h1⟩

/- ===================== C6 ===================== -/

/-- Claim C6: a tenant whose cached or freshly loaded product list is empty
is answered immediately with the exact empty-catalog response, and the call
trace grows by at most the catalog DB read — no embedding call and no
completion call is made. -/
theorem empty_catalog_immediate_response
    (env : Env) (domain userMessage apiKey userId userEmail merchandId : String) (st : St)
    (h : assocGet st.productCache domain = some [] ∨
         (assocGet st.productCache domain = none ∧ env.productsByDomain domain = .ok [])) :
    ∃ st2, processChatWithGPT env domain userMessage apiKey userId userEmail merchandId st =
      .ok (emptyCatalogResponse, st2) ∧
      ∃ extra, st2.calls = st.calls ++ extra ∧ extra.all (fun c => !(isModelCall c)) = true := by
  rcases h with h | ⟨h1, h2⟩
  · refine ⟨st, ?_, [], by simp, rfl⟩
    simp only [processChatWithGPT, loadProducts, h, List.isEmpty_nil, if_true]
  · refine ⟨{ logCall st (.dbByDomain domain) with productCache := assocSet st.productCache domain [] }, ?_, [.dbByDomain domain], rfl, by simp [isModelCall]⟩
    simp only [processChatWithGPT, loadProducts, h1, h2, logCall, List.isEmpty_nil, if_true]

def c6Env : Env :=
  { now := 0,
    productsByDomain := fun _ => .ok [],
    productsByIds := fun _ => .ok [],
    configData := fun _ => .ok [],
    fromDocuments := fun _ => .ok (),
    similaritySearch := fun _ _ _ => .ok [],
    completionContent := .ok "",
    parseJson := fun _ => none }

/-- Witness for C6: a tenant with zero products gets the exact empty-catalog
response and only the catalog DB read appears in the trace. -/
theorem empty_catalog_immediate_response_witness :
    (assocGet ({} : St).productCache "d" = none ∧ c6Env.productsByDomain "d" = .ok []) ∧
    ∃ st2, processChatWithGPT c6Env "d" "hola" "key" "u" "e" "m" ({} : St) =
      .ok (emptyCatalogResponse, st2) ∧
      ∃ extra, st2.calls = ({} : St).calls ++ extra ∧
        extra.all (fun c => !(isModelCall c)) = true :=
  ⟨⟨rfl, rfl⟩,
    empty_catalog_immediate_response c6Env "d" "hola" "key" "u" "e" "m" ({} : St)
      (Or.inr ⟨rfl, rfl⟩)⟩

end ChatService
